import Mathlib

/-!
Verification development for the link-classification script of this
repository (source file chech_link.py).  The script's pure data flow is
shallowly embedded below: network effects (the HTTP HEAD probe and the
GraphQL page fetch) are abstracted as oracle functions passed in as
arguments, the CSV file is modelled as an optional list of rows, and
Python strings are modelled as Lean strings acting on their character
lists.
-/

namespace ChechLink

/-- Characters counted as whitespace by Python str.strip and by the
regular-expression class backslash-s over str patterns (the Unicode
whitespace set). -/
def isPySpace (c : Char) : Bool :=
  c = ' ' || c = '\t' || c = '\n' || c = '\r' || c = '\x0b' || c = '\x0c'
    || c = '\x1c' || c = '\x1d' || c = '\x1e' || c = '\x1f'
    || c = '\x85' || c = '\xa0' || c = '\u1680'
    || ('\u2000' ≤ c && c ≤ '\u200a')
    || c = '\u2028' || c = '\u2029' || c = '\u202f' || c = '\u205f' || c = '\u3000'

/-- The seven delimiter characters: backtick, square brackets, parentheses
and angle brackets.  This is both the strip set of
url.strip of chech_link.py line 75 and the character class excluded by the
link regular expression on line 69. -/
def isDelim (c : Char) : Bool :=
  c = '\x60' || c = '[' || c = ']' || c = '(' || c = ')' || c = '<' || c = '>'

/-- Substring containment, modelling the Python membership test
needle in haystack for strings. -/
def containsSub (needle : List Char) : List Char → Bool
  | [] => needle.isEmpty
  | c :: cs => needle.isPrefixOf (c :: cs) || containsSub needle cs

/-- Strip characters satisfying p from both ends, modelling Python
str.strip variants. -/
def pyStrip (p : Char → Bool) (cs : List Char) : List Char :=
  ((cs.dropWhile p).reverse.dropWhile p).reverse

/-- chech_link.py line 75: url.strip followed by stripping the stray
delimiter characters from both ends. -/
def sanitizeUrl (s : String) : String :=
  String.mk (pyStrip isDelim (pyStrip isPySpace s.data))

def httpChars : List Char := ['h', 't', 't', 'p', ':', '/', '/']

def httpsChars : List Char := ['h', 't', 't', 'p', 's', ':', '/', '/']

/-- The anchored regular-expression test of chech_link.py line 78:
the string begins with one of the two recognized schemes. -/
def matchesScheme (cs : List Char) : Bool :=
  httpsChars.isPrefixOf cs || httpChars.isPrefixOf cs

/-- The guard on chech_link.py line 78: loopback token present, or the
string does not begin with a recognized scheme. -/
def rejectedUrl (url : String) : Bool :=
  containsSub "localhost".data url.data || containsSub "127.0.0.1".data url.data
    || !(matchesScheme url.data)

/-- Python str.split with a one-character separator: splits at every
occurrence, keeping empty pieces; the result is always nonempty. -/
def splitChar (sep : Char) : List Char → List (List Char)
  | [] => [[]]
  | c :: cs =>
    if c = sep then [] :: splitChar sep cs
    else
      match splitChar sep cs with
      | [] => [[c]]
      | h :: t => (c :: h) :: t

/-- Characters of cs preceding the first occurrence of a stop
character. -/
def takeUntilMem (stops : List Char) : List Char → List Char
  | [] => []
  | c :: cs => if stops.contains c then [] else c :: takeUntilMem stops cs

/-- The suffix of cs from the first occurrence of a stop character
(empty when none occurs). -/
def dropFromMem (stops : List Char) : List Char → List Char
  | [] => []
  | c :: cs => if stops.contains c then c :: cs else dropFromMem stops cs

/-- The parameter split that urllib.parse.urlparse applies to the raw
path: cut the last path segment at its first semicolon. -/
def stripParams (path : List Char) : List Char :=
  if path.contains '/' then
    (path.reverse.dropWhile (fun c => c ≠ '/')).reverse
      ++ takeUntilMem [';'] ((path.reverse.takeWhile (fun c => c ≠ '/')).reverse)
  else takeUntilMem [';'] path

/-- Model of urllib.parse.urlparse(url).path for URLs of the http and
https schemes (as called on chech_link.py line 100): remove the fragment,
drop the scheme and the network location, cut at the query, and split off
the trailing parameters. -/
def urlparsePath (url : String) : List Char :=
  let noFrag := takeUntilMem ['#'] url.data
  let afterScheme := (dropFromMem [':'] noFrag).drop 1
  let afterNet :=
    if afterScheme.take 2 = ['/', '/'] then dropFromMem ['/', '?'] (afterScheme.drop 2)
    else afterScheme
  stripParams (takeUntilMem ['?'] afterNet)

/-- chech_link.py line 100: the text after the last dot of the URL path
(the whole path when it has no dot). -/
def urlLastExt (url : String) : String :=
  String.mk ((splitChar '.' (urlparsePath url)).getLastD [])

/-- The static extension table of the Python mimetypes module, restricted
to common entries: extension to content type. -/
def typesMap : List (String × String) :=
  [("png", "image/png"), ("jpg", "image/jpeg"), ("jpeg", "image/jpeg"),
   ("gif", "image/gif"), ("bmp", "image/bmp"), ("webp", "image/webp"),
   ("svg", "image/svg+xml"), ("ico", "image/vnd.microsoft.icon"),
   ("mp3", "audio/mpeg"), ("wav", "audio/x-wav"), ("ogg", "audio/ogg"),
   ("mp4", "video/mp4"), ("avi", "video/x-msvideo"), ("mov", "video/quicktime"),
   ("webm", "video/webm"), ("mpeg", "video/mpeg"),
   ("txt", "text/plain"), ("html", "text/html"), ("htm", "text/html"),
   ("css", "text/css"), ("csv", "text/csv"), ("js", "text/javascript"),
   ("xml", "text/xml"), ("json", "application/json"), ("pdf", "application/pdf"),
   ("zip", "application/zip"), ("doc", "application/msword"),
   ("bin", "application/octet-stream")]

/-- chech_link.py line 101: mimetypes.guess_type on a file name built from
the extracted extension; lookup is case-insensitive and yields the content
type when the (lowercased) extension is in the table. -/
def guess_type_ext (ext : String) : Option String :=
  typesMap.lookup (String.mk (ext.data.map Char.toLower))

/-- Python content_type.split on the slash, first piece: the characters
before the first slash. -/
def primaryToken (contentType : String) : String :=
  String.mk (contentType.data.takeWhile (fun c => c ≠ '/'))

/-- Outcome of the HEAD probe of chech_link.py line 82, abstracted as an
oracle: a response carrying the Content-Type header value (empty string
when the header is absent), the raised requests.exceptions.InvalidURL, or
any other raised exception. -/
inductive ProbeResult where
  | success (contentType : String)
  | invalidURL
  | failure
  deriving DecidableEq, Repr

/-- chech_link.py lines 97 to 107: the fallback on a generic probe
failure.  Derive the extension from the URL path, guess a content type
from the static table, and return its primary token, or "unknown" when
the table has no entry. -/
def extension_fallback (url : String) : String :=
  match guess_type_ext (urlLastExt url) with
  | some t => primaryToken t
  | none => "unknown"

/-- chech_link.py lines 73 to 109, get_media_type.  The network probe is
an oracle argument; the rest is translated clause by clause: sanitize,
reject loopback and non-http strings, classify the Content-Type by
substring, fall back to the extension table on a generic failure, map
requests.exceptions.InvalidURL to "invalid", and default to "unknown". -/
def get_media_type (probe : String → ProbeResult) (rawUrl : String) : String :=
  if rejectedUrl (sanitizeUrl rawUrl) then "invalid"
  else
    match probe (sanitizeUrl rawUrl) with
    | ProbeResult.success contentType =>
      if contentType ≠ "" then
        if containsSub "image".data contentType.data then "image"
        else if containsSub "audio".data contentType.data then "audio"
        else if containsSub "video".data contentType.data then "video"
        else if containsSub "text".data contentType.data
            || containsSub "html".data contentType.data then "text"
        else primaryToken contentType
      else "unknown"
    | ProbeResult.invalidURL => "invalid"
    | ProbeResult.failure => extension_fallback (sanitizeUrl rawUrl)

/-- A character the link regular expression of chech_link.py line 69 may
consume after the scheme: anything except whitespace and the seven
delimiter characters. -/
def isLinkChar (c : Char) : Bool :=
  !(isPySpace c || isDelim c)

/-- Length of the scheme literal matched at the head of cs by the
regular expression https?:// (the s is consumed greedily). -/
def schemeLen (cs : List Char) : Option Nat :=
  if httpsChars.isPrefixOf cs then some 8
  else if httpChars.isPrefixOf cs then some 7
  else none

/-- The scan of re.findall on chech_link.py line 70: at each position try
the pattern; on a match (scheme followed by at least one link character)
emit the maximal match and resume after it, otherwise advance one
character.  The fuel argument is the length of the remaining text, so the
recursion is structural. -/
def findLinksGo : Nat → List Char → List String
  | 0, _ => []
  | _ + 1, [] => []
  | fuel + 1, c :: cs =>
    match schemeLen (c :: cs) with
    | some n =>
      if ((c :: cs).drop n).takeWhile isLinkChar = [] then findLinksGo fuel cs
      else
        String.mk ((c :: cs).take n ++ ((c :: cs).drop n).takeWhile isLinkChar)
          :: findLinksGo fuel (((c :: cs).drop n).dropWhile isLinkChar)
    | none => findLinksGo fuel cs

/-- chech_link.py lines 64 to 70, extract_visible_http_links: an absent
or empty (falsy) text yields no links, otherwise the regular-expression
scan runs over the text. -/
def extract_visible_http_links (markdown_text : Option String) : List String :=
  match markdown_text with
  | none => []
  | some s => if s = "" then [] else findLinksGo s.data.length s.data

/-- The sequence ms occurs in the text, in order and without overlap:
the text is gap, first match, gap, second match, and so on. -/
inductive Interleaved : List Char → List String → Prop where
  | nil (g : List Char) : Interleaved g []
  | cons (g : List Char) (m : String) (rest : List Char) (ms : List String) :
      Interleaved rest ms → Interleaved (g ++ m.data ++ rest) (m :: ms)

/-- The pageInfo object of the GraphQL response (chech_link.py lines
41 to 44). -/
structure PageInfo where
  hasNextPage : Bool
  endCursor : Option String
  deriving DecidableEq, Repr

/-- One pull-request node of the GraphQL response (chech_link.py lines
45 to 49); the body may be null. -/
structure PRNode where
  number : Int
  title : String
  body : Option String
  deriving DecidableEq, Repr

/-- One page of the pullRequests connection. -/
structure PRPage where
  pageInfo : PageInfo
  nodes : List PRNode
  deriving DecidableEq, Repr

/-- The while loop of chech_link.py lines 55 to 61, with the remote
server abstracted as a function from the cursor variable to the response
page.  Each loop iteration issues one fetch with the current cursor,
yields the page, and continues with the reported endCursor while
hasNextPage holds.  The trace records, per fetch, the cursor sent and the
page received; fuel bounds the unrolling of the loop. -/
def paginate (srv : Option String → PRPage) : Nat → Option String → List (Option String × PRPage)
  | 0, _ => []
  | fuel + 1, cursor =>
    if (srv cursor).pageInfo.hasNextPage then
      (cursor, srv cursor) :: paginate srv fuel ((srv cursor).pageInfo.endCursor)
    else [(cursor, srv cursor)]

/-- The cursor the loop sends on its k-th fetch when it starts from
cursor c: c itself for k equal zero, then the endCursor reported by each
successive response. -/
def cursorAtFrom (srv : Option String → PRPage) : Option String → Nat → Option String
  | c, 0 => c
  | c, k + 1 => cursorAtFrom srv ((srv c).pageInfo.endCursor) k

/-- chech_link.py lines 31 to 61, get_pull_requests_paginated: the repo
string is unpacked as owner, name by splitting on the slash (a split of
any size other than two raises ValueError when the generator is first
pulled, before any request), then the pagination loop runs with cursor
None.  The server oracle takes the owner and name query variables. -/
def get_pull_requests_paginated (srv : String → String → Option String → PRPage)
    (repo : String) (fuel : Nat) : Except String (List (Option String × PRPage)) :=
  match splitChar '/' repo.data with
  | [ownerChars, nameChars] =>
    Except.ok (paginate (srv (String.mk ownerChars) (String.mk nameChars)) fuel none)
  | _ => Except.error "ValueError: owner, name unpacking failed"

/-- chech_link.py line 153: the isGithub flag is a string-prefix test of
the raw link against https-colon-slash-slash-github.com. -/
def isGithubLink (link : String) : Bool :=
  "https://github.com".data.isPrefixOf link.data

/-- One persisted row (chech_link.py lines 154 to 161). -/
structure ClassifiedLink where
  repo : String
  pr_link : String
  pr_title : String
  link : String
  media_type : String
  isGithub : Bool
  deriving DecidableEq, Repr

/-- The record appended to page_results for one classified link
(chech_link.py lines 153 to 161). -/
def mkClassifiedLink (repo pr_link pr_title link media_type : String) : ClassifiedLink :=
  { repo := repo, pr_link := pr_link, pr_title := pr_title, link := link,
    media_type := media_type, isGithub := isGithubLink link }

/-- Modelled from the spec: the host component of a raw link, as the
specification's phrase "the raw link's host" denotes it (the network
location of the URL, with any user information and port removed and
letters lowercased).  The source never computes a host, so this
definition exists only to compare the specification's wording with the
prefix test the source actually performs. -/
def linkHost (url : String) : String :=
  let noFrag := takeUntilMem ['#'] url.data
  let afterScheme := (dropFromMem [':'] noFrag).drop 1
  if afterScheme.take 2 = ['/', '/'] then
    let netloc := takeUntilMem ['/', '?'] (afterScheme.drop 2)
    let hostport := (netloc.reverse.takeWhile (fun c => c ≠ '@')).reverse
    String.mk ((takeUntilMem [':'] hostport).map Char.toLower)
  else ""

/-- The per-page aggregation of chech_link.py lines 126 to 161: collect
(pr_link, pr_title, link) triples from every node's body, then classify
each link and build its row.  The classifier is abstracted as a function;
the trace is taken in submission order (the Python thread pool observes
completion order, but every row carries its own origin data, so the set
of rows is order-independent). -/
def processPage (classify : String → String) (repo : String) (prPage : List PRNode) :
    List ClassifiedLink :=
  (prPage.flatMap (fun pr =>
      (extract_visible_http_links (some (pr.body.getD ""))).map
        (fun link =>
          ("https://github.com/" ++ repo ++ "/pull/" ++ toString pr.number, pr.title, link))))
    |>.map (fun x => mkClassifiedLink repo x.1 x.2.1 x.2.2 (classify x.2.2))

/-- One row of the CSV file: the header row or a data row. -/
inductive CsvRow where
  | header
  | data (row : ClassifiedLink)
  deriving DecidableEq, Repr

/-- chech_link.py lines 115 to 118: when the file does not exist, create
it containing exactly the header row; otherwise leave it as it is. -/
def sinkInit : Option (List CsvRow) → Option (List CsvRow)
  | none => some [CsvRow.header]
  | some rows => some rows

/-- chech_link.py lines 163 to 165: when page_results is nonempty, append
its rows in append mode with header suppressed; an empty page performs no
write at all. -/
def sinkFlush (pageResults : List ClassifiedLink) (s : Option (List CsvRow)) :
    Option (List CsvRow) :=
  if pageResults = [] then s
  else
    match s with
    | none => some (pageResults.map CsvRow.data)
    | some rows => some (rows ++ pageResults.map CsvRow.data)

/-- One whole invocation of the sink side of extract_pr_links: create the
schema if needed, then flush each page's batch in order. -/
def runSink (pages : List (List ClassifiedLink)) (s : Option (List CsvRow)) :
    Option (List CsvRow) :=
  pages.foldl (fun st page => sinkFlush page st) (sinkInit s)

def isHeaderRow : CsvRow → Bool
  | CsvRow.header => true
  | CsvRow.data _ => false

/-- Number of header rows in the file (zero when the file is absent). -/
def headerCount : Option (List CsvRow) → Nat
  | none => 0
  | some rows => rows.countP isHeaderRow

/-- A concrete two-page server: the first response reports a next page
with cursor c1, the response to any nonempty cursor reports no further
page. -/
def srvTwoPages : Option String → PRPage
  | none => ⟨⟨true, some "c1"⟩, []⟩
  | some _ => ⟨⟨false, none⟩, []⟩

lemma lookup_mem_values {k v : String} :
    ∀ {l : List (String × String)}, l.lookup k = some v → v ∈ l.map Prod.snd := by
  intro l
  induction l with
  | nil => intro h; simp [List.lookup] at h
  | cons p t ih =>
    intro h
    rw [List.lookup] at h
    by_cases hk : k == p.1
    · simp [hk] at h
      simp [h]
    · simp [hk] at h
      simp [ih h]

lemma isPrefixOf_take {l₁ : List Char} :
    ∀ {l₂ : List Char}, l₁.isPrefixOf l₂ = true → l₂.take l₁.length = l₁ := by
  induction l₁ with
  | nil => intro l₂ _; simp
  | cons a t ih =>
    intro l₂ h
    cases l₂ with
    | nil => simp [List.isPrefixOf] at h
    | cons b t₂ =>
      rw [List.isPrefixOf] at h
      simp only [Bool.and_eq_true, beq_iff_eq] at h
      simp [h.1, ih h.2]

lemma isPrefixOf_append (l₁ l₂ : List Char) : l₁.isPrefixOf (l₁ ++ l₂) = true := by
  induction l₁ with
  | nil => simp [List.isPrefixOf]
  | cons a t ih => simp [List.isPrefixOf, ih]

lemma mem_takeWhile_pred {p : Char → Bool} {c : Char} :
    ∀ {l : List Char}, c ∈ l.takeWhile p → p c = true := by
  intro l
  induction l with
  | nil => intro h; simp at h
  | cons a t ih =>
    intro h
    rw [List.takeWhile] at h
    by_cases ha : p a
    · simp [ha] at h
      rcases h with h | h
      · rw [h]; exact ha
      · exact ih h
    · simp [ha] at h

/-- Claim C4: a string whose sanitized form contains a loopback token or
does not begin with a recognized scheme is classified "invalid", and the
probe oracle is never consulted (the result is the same for every
probe). -/
theorem C4_theorem (probe : String → ProbeResult) (rawUrl : String)
    (h : containsSub "localhost".data (sanitizeUrl rawUrl).data = true
       ∨ containsSub "127.0.0.1".data (sanitizeUrl rawUrl).data = true
       ∨ matchesScheme (sanitizeUrl rawUrl).data = false) :
    get_media_type probe rawUrl = "invalid" := by
  have hrej : rejectedUrl (sanitizeUrl rawUrl) = true := by
    unfold rejectedUrl
    rcases h with h | h | h <;> simp [h]
  unfold get_media_type
  simp [hrej]

theorem C4_witness :
    (containsSub "localhost".data (sanitizeUrl "http://localhost:8080/a.png").data = true)
    ∧ get_media_type (fun _ => ProbeResult.success "image/png") "http://localhost:8080/a.png"
        = "invalid" :=
  ⟨by decide, C4_theorem _ _ (Or.inl (by decide))⟩

/-- Claim C1 (amended): past the scheme/loopback check, a generic probe
failure (timeout, connection error, DNS failure) falls back to the
extension-table lookup, but a malformed-URL failure
(requests.exceptions.InvalidURL) is returned as "invalid" without the
fallback. -/
theorem C1_theorem (probe : String → ProbeResult) (rawUrl : String)
    (hpass : rejectedUrl (sanitizeUrl rawUrl) = false) :
    (probe (sanitizeUrl rawUrl) = ProbeResult.failure →
      get_media_type probe rawUrl = extension_fallback (sanitizeUrl rawUrl))
    ∧ (probe (sanitizeUrl rawUrl) = ProbeResult.invalidURL →
      get_media_type probe rawUrl = "invalid") := by
  unfold get_media_type
  simp only [hpass, Bool.false_eq_true, if_false]
  constructor <;> intro h <;> rw [h]

/-- Claim C1, counterexample to the claim as stated: a probe failing with
the malformed-URL exception on a URL whose path ends in ".png" yields
"invalid", not the extension-table token "image" the claim requires for
every probe failure. -/
theorem C1_counterexample :
    get_media_type (fun _ => ProbeResult.invalidURL) "http://example.com/img.png" = "invalid"
    ∧ extension_fallback (sanitizeUrl "http://example.com/img.png") = "image"
    ∧ ("invalid" : String) ≠ "image" :=
  ⟨by decide, by decide, by decide⟩

theorem C1_witness :
    rejectedUrl (sanitizeUrl "https://cdn.example.net/song.mp3") = false
    ∧ get_media_type (fun _ => ProbeResult.failure) "https://cdn.example.net/song.mp3"
        = extension_fallback (sanitizeUrl "https://cdn.example.net/song.mp3") :=
  ⟨by decide, (C1_theorem _ _ (by decide)).1 rfl⟩

/-- Claim C5: when the probe fails generically (timeout or error), a
sanitized URL whose path extension is in the static table is classified
by that entry's primary type token, and an extension unknown to the table
yields "unknown". -/
theorem C5_theorem (probe : String → ProbeResult) (rawUrl : String)
    (hpass : rejectedUrl (sanitizeUrl rawUrl) = false)
    (hfail : probe (sanitizeUrl rawUrl) = ProbeResult.failure) :
    (∀ t, guess_type_ext (urlLastExt (sanitizeUrl rawUrl)) = some t →
      get_media_type probe rawUrl = primaryToken t)
    ∧ (guess_type_ext (urlLastExt (sanitizeUrl rawUrl)) = none →
      get_media_type probe rawUrl = "unknown") := by
  have hbase : get_media_type probe rawUrl = extension_fallback (sanitizeUrl rawUrl) := by
    unfold get_media_type
    simp only [hpass, Bool.false_eq_true, if_false]
    rw [hfail]
  constructor
  · intro t ht
    rw [hbase]
    unfold extension_fallback
    rw [ht]
  · intro ht
    rw [hbase]
    unfold extension_fallback
    rw [ht]

theorem C5_witness :
    guess_type_ext (urlLastExt (sanitizeUrl "https://img.host/p/photo.png")) = some "image/png"
    ∧ get_media_type (fun _ => ProbeResult.failure) "https://img.host/p/photo.png"
        = primaryToken "image/png" :=
  ⟨by decide, (C5_theorem _ _ (by decide) rfl).1 "image/png" (by decide)⟩

lemma gmt_rejected {probe : String → ProbeResult} {rawUrl : String}
    (h : rejectedUrl (sanitizeUrl rawUrl) = true) :
    get_media_type probe rawUrl = "invalid" := by
  unfold get_media_type
  simp [h]

lemma gmt_success {probe : String → ProbeResult} {rawUrl ct : String}
    (h : rejectedUrl (sanitizeUrl rawUrl) = false)
    (hp : probe (sanitizeUrl rawUrl) = ProbeResult.success ct) :
    get_media_type probe rawUrl =
      (if ct ≠ "" then
        if containsSub "image".data ct.data then "image"
        else if containsSub "audio".data ct.data then "audio"
        else if containsSub "video".data ct.data then "video"
        else if containsSub "text".data ct.data || containsSub "html".data ct.data then "text"
        else primaryToken ct
      else "unknown") := by
  unfold get_media_type
  simp only [h, Bool.false_eq_true, if_false]
  rw [hp]

lemma gmt_invalidURL {probe : String → ProbeResult} {rawUrl : String}
    (h : rejectedUrl (sanitizeUrl rawUrl) = false)
    (hp : probe (sanitizeUrl rawUrl) = ProbeResult.invalidURL) :
    get_media_type probe rawUrl = "invalid" := by
  unfold get_media_type
  simp only [h, Bool.false_eq_true, if_false]
  rw [hp]

lemma gmt_failure {probe : String → ProbeResult} {rawUrl : String}
    (h : rejectedUrl (sanitizeUrl rawUrl) = false)
    (hp : probe (sanitizeUrl rawUrl) = ProbeResult.failure) :
    get_media_type probe rawUrl = extension_fallback (sanitizeUrl rawUrl) := by
  unfold get_media_type
  simp only [h, Bool.false_eq_true, if_false]
  rw [hp]

lemma fallback_eq_of_some {url t : String}
    (hg : guess_type_ext (urlLastExt url) = some t) :
    extension_fallback url = primaryToken t := by
  unfold extension_fallback
  rw [hg]

lemma fallback_eq_of_none {url : String}
    (hg : guess_type_ext (urlLastExt url) = none) :
    extension_fallback url = "unknown" := by
  unfold extension_fallback
  rw [hg]

/-- Claim C3: get_media_type is total (the embedding is a total function,
and every exception of the Python body is caught inside it) and always
returns one of the six fixed tokens or the primary type token of a
content type, the latter coming either from the probe's response or from
the static extension table. -/
theorem C3_theorem (probe : String → ProbeResult) (rawUrl : String) :
    get_media_type probe rawUrl = "image" ∨ get_media_type probe rawUrl = "audio"
    ∨ get_media_type probe rawUrl = "video" ∨ get_media_type probe rawUrl = "text"
    ∨ get_media_type probe rawUrl = "invalid" ∨ get_media_type probe rawUrl = "unknown"
    ∨ ∃ ct : String,
        (probe (sanitizeUrl rawUrl) = ProbeResult.success ct ∨ ct ∈ typesMap.map Prod.snd)
        ∧ get_media_type probe rawUrl = primaryToken ct := by
  cases hrej : rejectedUrl (sanitizeUrl rawUrl) with
  | true => exact Or.inr (Or.inr (Or.inr (Or.inr (Or.inl (gmt_rejected hrej)))))
  | false =>
    cases hp : probe (sanitizeUrl rawUrl) with
    | success ct =>
      rw [gmt_success hrej hp]
      split_ifs with hne hA hB hC hD
      · exact Or.inl rfl
      · exact Or.inr (Or.inl rfl)
      · exact Or.inr (Or.inr (Or.inl rfl))
      · exact Or.inr (Or.inr (Or.inr (Or.inl rfl)))
      · exact Or.inr (Or.inr (Or.inr (Or.inr (Or.inr (Or.inr ⟨ct, Or.inl rfl, rfl⟩)))))
      · exact Or.inr (Or.inr (Or.inr (Or.inr (Or.inr (Or.inl rfl)))))
    | invalidURL =>
      exact Or.inr (Or.inr (Or.inr (Or.inr (Or.inl (gmt_invalidURL hrej hp)))))
    | failure =>
      have hb := gmt_failure hrej hp
      cases hg : guess_type_ext (urlLastExt (sanitizeUrl rawUrl)) with
      | none =>
        rw [fallback_eq_of_none hg] at hb
        exact Or.inr (Or.inr (Or.inr (Or.inr (Or.inr (Or.inl hb)))))
      | some t =>
        rw [fallback_eq_of_some hg] at hb
        exact Or.inr (Or.inr (Or.inr (Or.inr (Or.inr (Or.inr
          ⟨t, Or.inr (lookup_mem_values hg), hb⟩)))))

theorem C3_witness :
    get_media_type (fun _ => ProbeResult.success "application/json") "https://api.example.com/v1"
        = "image"
    ∨ get_media_type (fun _ => ProbeResult.success "application/json") "https://api.example.com/v1"
        = "audio"
    ∨ get_media_type (fun _ => ProbeResult.success "application/json") "https://api.example.com/v1"
        = "video"
    ∨ get_media_type (fun _ => ProbeResult.success "application/json") "https://api.example.com/v1"
        = "text"
    ∨ get_media_type (fun _ => ProbeResult.success "application/json") "https://api.example.com/v1"
        = "invalid"
    ∨ get_media_type (fun _ => ProbeResult.success "application/json") "https://api.example.com/v1"
        = "unknown"
    ∨ ∃ ct : String,
        ((fun _ => ProbeResult.success "application/json") (sanitizeUrl "https://api.example.com/v1")
            = ProbeResult.success ct
          ∨ ct ∈ typesMap.map Prod.snd)
        ∧ get_media_type (fun _ => ProbeResult.success "application/json") "https://api.example.com/v1"
            = primaryToken ct :=
  C3_theorem (fun _ => ProbeResult.success "application/json") "https://api.example.com/v1"

/-- Claim C2 (amended): every aggregated row carries an isGithub flag
equal to the string-prefix test of its raw link against
https-colon-slash-slash-github.com — not to a comparison of the link's
host with github.com. -/
theorem C2_theorem (classify : String → String) (repo : String) (prPage : List PRNode) :
    ∀ r ∈ processPage classify repo prPage, r.isGithub = isGithubLink r.link := by
  intro r hr
  unfold processPage at hr
  simp only [List.mem_map] at hr
  obtain ⟨x, _, rfl⟩ := hr
  rfl

/-- Claim C2, counterexample to the claim as stated: a page whose single
link is http-colon-slash-slash-github.com/a/b aggregates to a row whose
link's host is exactly github.com and whose isGithub flag is
nevertheless false (the source tests the https prefix, not the host);
conversely a github.community link gets flag true with a host different
from github.com. -/
theorem C2_counterexample :
    (mkClassifiedLink "o/r" "https://github.com/o/r/pull/7" "t" "http://github.com/a/b" "unknown")
      ∈ processPage (fun _ => "unknown") "o/r" [⟨7, "t", some "see http://github.com/a/b"⟩]
    ∧ linkHost "http://github.com/a/b" = "github.com"
    ∧ (mkClassifiedLink "o/r" "https://github.com/o/r/pull/7" "t" "http://github.com/a/b"
        "unknown").isGithub = false
    ∧ linkHost "https://github.community/x" ≠ "github.com"
    ∧ (mkClassifiedLink "o/r" "https://github.com/o/r/pull/7" "t" "https://github.community/x"
        "unknown").isGithub = true :=
  ⟨by decide, by decide, by decide, by decide, by decide⟩

theorem C2_witness :
    (mkClassifiedLink "o/r" "https://github.com/o/r/pull/1" "t" "https://github.com/a/b"
      "unknown").isGithub = isGithubLink "https://github.com/a/b" :=
  C2_theorem (fun _ => "unknown") "o/r" [⟨1, "t", some "x https://github.com/a/b y"⟩]
    (mkClassifiedLink "o/r" "https://github.com/o/r/pull/1" "t" "https://github.com/a/b"
      "unknown") (by decide)

lemma countP_data_map (l : List ClassifiedLink) :
    (l.map CsvRow.data).countP isHeaderRow = 0 := by
  induction l with
  | nil => rfl
  | cons a t ih => simp [List.countP_cons, ih, isHeaderRow]

lemma headerCount_sinkFlush (pageResults : List ClassifiedLink) (s : Option (List CsvRow)) :
    headerCount (sinkFlush pageResults s) = headerCount s := by
  unfold sinkFlush
  by_cases hp : pageResults = []
  · rw [if_pos hp]
  · rw [if_neg hp]
    cases s with
    | none =>
      show (pageResults.map CsvRow.data).countP isHeaderRow = 0
      exact countP_data_map pageResults
    | some rows =>
      show ((rows ++ pageResults.map CsvRow.data).countP isHeaderRow) = rows.countP isHeaderRow
      rw [List.countP_append, countP_data_map, Nat.add_zero]

lemma headerCount_foldl (pages : List (List ClassifiedLink)) :
    ∀ s, headerCount (pages.foldl (fun st page => sinkFlush page st) s) = headerCount s := by
  induction pages with
  | nil => intro s; rfl
  | cons p t ih =>
    intro s
    rw [List.foldl_cons, ih, headerCount_sinkFlush]

lemma headerCount_runSink (pages : List (List ClassifiedLink)) (s : Option (List CsvRow)) :
    headerCount (runSink pages s) = headerCount (sinkInit s) := by
  unfold runSink
  rw [headerCount_foldl]

lemma foldl_sinkFlush_some (pages : List (List ClassifiedLink)) :
    ∀ rows, ∃ rows', pages.foldl (fun st page => sinkFlush page st) (some rows) = some rows' := by
  induction pages with
  | nil => intro rows; exact ⟨rows, rfl⟩
  | cons p t ih =>
    intro rows
    rw [List.foldl_cons]
    unfold sinkFlush
    by_cases hp : p = []
    · rw [if_pos hp]; exact ih rows
    · rw [if_neg hp]; exact ih (rows ++ p.map CsvRow.data)

/-- Claim C8: the sink's schema creation is idempotent.  A run starting
from an absent file produces a file with exactly one header row; a second
run against the resulting file still leaves exactly one header row, and
initialization against an existing file changes nothing (appends only
data rows, never a second header). -/
theorem C8_theorem (pages1 pages2 : List (List ClassifiedLink)) :
    headerCount (runSink pages1 none) = 1
    ∧ headerCount (runSink pages2 (runSink pages1 none)) = 1
    ∧ ∀ rows, sinkInit (some rows) = some rows := by
  have h1 : headerCount (runSink pages1 none) = 1 := by
    rw [headerCount_runSink]
    rfl
  refine ⟨h1, ?_, fun rows => rfl⟩
  obtain ⟨rows', hr⟩ := foldl_sinkFlush_some pages1 [CsvRow.header]
  have hrun : runSink pages1 none = some rows' := by
    unfold runSink
    exact hr
  rw [headerCount_runSink, hrun]
  show headerCount (some rows') = 1
  rw [← hrun]
  exact h1

theorem C8_witness :
    headerCount (runSink [[mkClassifiedLink "o/r" "p" "t" "l" "m"]] none) = 1
    ∧ headerCount (runSink [[mkClassifiedLink "o/r" "p" "t" "l" "m"]]
        (runSink [[mkClassifiedLink "o/r" "p" "t" "l" "m"]] none)) = 1
    ∧ sinkInit (some []) = some [] := by
  have h := C8_theorem [[mkClassifiedLink "o/r" "p" "t" "l" "m"]]
    [[mkClassifiedLink "o/r" "p" "t" "l" "m"]]
  exact ⟨h.1, h.2.1, h.2.2 []⟩

lemma flatMap_links_nil (repo : String) (prPage : List PRNode)
    (h : ∀ pr ∈ prPage, extract_visible_http_links (some (pr.body.getD "")) = []) :
    prPage.flatMap (fun pr =>
      (extract_visible_http_links (some (pr.body.getD ""))).map
        (fun link =>
          ("https://github.com/" ++ repo ++ "/pull/" ++ toString pr.number, pr.title, link)))
      = [] := by
  induction prPage with
  | nil => rfl
  | cons pr t ih =>
    rw [List.flatMap_cons]
    rw [h pr (by simp)]
    simp only [List.map_nil, List.nil_append]
    exact ih (fun q hq => h q (by simp [hq]))

/-- Claim C10: a page from which no link is extracted produces an empty
aggregated batch, and flushing an empty batch performs no write: the file
state is unchanged. -/
theorem C10_theorem (classify : String → String) (repo : String) (prPage : List PRNode)
    (s : Option (List CsvRow))
    (h : ∀ pr ∈ prPage, extract_visible_http_links (some (pr.body.getD "")) = []) :
    processPage classify repo prPage = []
    ∧ sinkFlush (processPage classify repo prPage) s = s := by
  have hempty : processPage classify repo prPage = [] := by
    unfold processPage
    rw [flatMap_links_nil repo prPage h]
    rfl
  refine ⟨hempty, ?_⟩
  rw [hempty]
  unfold sinkFlush
  rw [if_pos rfl]

theorem C10_witness :
    processPage (fun _ => "unknown") "o/r" [⟨1, "t", none⟩, ⟨2, "u", some "no links here"⟩] = []
    ∧ sinkFlush
        (processPage (fun _ => "unknown") "o/r" [⟨1, "t", none⟩, ⟨2, "u", some "no links here"⟩])
        (some [CsvRow.header]) = some [CsvRow.header] :=
  C10_theorem (fun _ => "unknown") "o/r" [⟨1, "t", none⟩, ⟨2, "u", some "no links here"⟩]
    (some [CsvRow.header]) (by decide)

lemma splitChar_ne_nil (sep : Char) : ∀ cs : List Char, splitChar sep cs ≠ [] := by
  intro cs
  induction cs with
  | nil => simp [splitChar]
  | cons c t ih =>
    rw [splitChar]
    by_cases hc : c = sep
    · simp [hc]
    · simp only [hc, if_false]
      cases h : splitChar sep t with
      | nil => simp
      | cons a b => simp

lemma splitChar_length (sep : Char) :
    ∀ cs : List Char, (splitChar sep cs).length = cs.count sep + 1 := by
  intro cs
  induction cs with
  | nil => simp [splitChar]
  | cons c t ih =>
    rw [splitChar]
    by_cases hc : c = sep
    · subst hc
      simp [List.count_cons, ih]
    · cases h : splitChar sep t with
      | nil => exact absurd h (splitChar_ne_nil sep t)
      | cons a b =>
        rw [if_neg hc]
        rw [h] at ih
        simp only [List.length_cons] at ih ⊢
        have hcount : (c :: t).count sep = t.count sep := by
          simp [List.count_cons, hc]
        rw [hcount]
        omega

/-- Claim C9: pulling the first page of get_pull_requests_paginated fails
with the unpacking ValueError exactly when the repo string does not
contain exactly one slash; the failure is decided before any request is
issued, as the server oracle is universally quantified and never
consulted on the error path. -/
theorem C9_theorem (srv : String → String → Option String → PRPage)
    (repo : String) (fuel : Nat) :
    (∃ e, get_pull_requests_paginated srv repo fuel = Except.error e)
      ↔ repo.data.count '/' ≠ 1 := by
  have hlen := splitChar_length '/' repo.data
  have hne := splitChar_ne_nil '/' repo.data
  unfold get_pull_requests_paginated
  cases hs : splitChar '/' repo.data with
  | nil => exact absurd hs hne
  | cons a t =>
    rw [hs] at hlen
    cases t with
    | nil =>
      simp only [List.length_cons, List.length_nil] at hlen
      constructor
      · intro _
        omega
      · intro _
        exact ⟨"ValueError: owner, name unpacking failed", rfl⟩
    | cons b t2 =>
      cases t2 with
      | nil =>
        simp only [List.length_cons, List.length_nil] at hlen
        constructor
        · rintro ⟨e, he⟩
          simp at he
        · intro hc
          exfalso
          omega
      | cons d t3 =>
        simp only [List.length_cons] at hlen
        constructor
        · intro _
          omega
        · intro _
          exact ⟨"ValueError: owner, name unpacking failed", rfl⟩

theorem C9_witness :
    (∃ e, get_pull_requests_paginated (fun _ _ _ => PRPage.mk (PageInfo.mk false none) [])
        "ownername" 3 = Except.error e)
      ↔ "ownername".data.count '/' ≠ 1 :=
  C9_theorem (fun _ _ _ => PRPage.mk (PageInfo.mk false none) []) "ownername" 3

lemma cursorAtFrom_zero (srv : Option String → PRPage) (c : Option String) :
    cursorAtFrom srv c 0 = c := rfl

lemma cursorAtFrom_succ (srv : Option String → PRPage) :
    ∀ (k : Nat) (c : Option String),
      cursorAtFrom srv c (k + 1) = (srv (cursorAtFrom srv c k)).pageInfo.endCursor := by
  intro k
  induction k with
  | zero => intro c; rfl
  | succ k' ih => intro c; exact ih ((srv c).pageInfo.endCursor)

lemma paginate_trace (srv : Option String → PRPage) :
    ∀ (N fuel : Nat) (c : Option String), 0 < N → N ≤ fuel →
      (∀ k, k + 1 < N → (srv (cursorAtFrom srv c k)).pageInfo.hasNextPage = true) →
      (srv (cursorAtFrom srv c (N - 1))).pageInfo.hasNextPage = false →
      (paginate srv fuel c).length = N
      ∧ ∀ k, k < N → (paginate srv fuel c)[k]? =
          some (cursorAtFrom srv c k, srv (cursorAtFrom srv c k)) := by
  intro N
  induction N with
  | zero =>
    intro fuel c hpos
    omega
  | succ M ih =>
    intro fuel c hpos hfuel hmid hlast
    cases fuel with
    | zero => omega
    | succ f =>
      have hunf : paginate srv (f + 1) c =
          (if (srv c).pageInfo.hasNextPage then
            (c, srv c) :: paginate srv f ((srv c).pageInfo.endCursor)
          else [(c, srv c)]) := rfl
      by_cases hM : M = 0
      · subst hM
        have hl : (srv c).pageInfo.hasNextPage = false := hlast
        rw [hunf]
        simp only [hl, Bool.false_eq_true, if_false]
        refine ⟨rfl, ?_⟩
        intro k hk
        have hk0 : k = 0 := by omega
        subst hk0
        simp [List.getElem?_cons_zero, cursorAtFrom_zero]
      · obtain ⟨M', rfl⟩ : ∃ M', M = M' + 1 := ⟨M - 1, by omega⟩
        have hnext : (srv c).pageInfo.hasNextPage = true := hmid 0 (by omega)
        rw [hunf]
        simp only [hnext, if_true]
        have ih' := ih f ((srv c).pageInfo.endCursor) (by omega) (by omega)
          (fun k hk => hmid (k + 1) (by omega)) hlast
        refine ⟨by rw [List.length_cons, ih'.1], ?_⟩
        intro k hk
        cases k with
        | zero => simp [List.getElem?_cons_zero, cursorAtFrom_zero]
        | succ k' =>
          rw [List.getElem?_cons_succ]
          exact ih'.2 k' (by omega)

/-- Claim C6: starting from an absent cursor, when the first N - 1
responses report hasNextPage true and response N reports false, the loop
performs exactly N fetches (for any fuel at least N); the first fetch
carries the absent cursor, the k-th fetch carries the cursor the k-th
step of the chain dictates, and fetch k + 1 carries exactly the endCursor
of the page received by fetch k. -/
theorem C6_theorem (srv : Option String → PRPage) (N fuel : Nat)
    (hpos : 0 < N) (hfuel : N ≤ fuel)
    (hmid : ∀ k, k + 1 < N → (srv (cursorAtFrom srv none k)).pageInfo.hasNextPage = true)
    (hlast : (srv (cursorAtFrom srv none (N - 1))).pageInfo.hasNextPage = false) :
    (paginate srv fuel none).length = N
    ∧ (paginate srv fuel none)[0]? = some (none, srv none)
    ∧ (∀ k, k < N → (paginate srv fuel none)[k]? =
        some (cursorAtFrom srv none k, srv (cursorAtFrom srv none k)))
    ∧ (∀ k, k + 1 < N →
        ((paginate srv fuel none)[k + 1]?).map Prod.fst =
          ((paginate srv fuel none)[k]?).map (fun e => e.2.pageInfo.endCursor)) := by
  obtain ⟨hlen, hget⟩ := paginate_trace srv N fuel none hpos hfuel hmid hlast
  refine ⟨hlen, ?_, hget, ?_⟩
  · rw [hget 0 hpos, cursorAtFrom_zero]
  · intro k hk
    rw [hget (k + 1) hk, hget k (by omega)]
    simp only [Option.map_some']
    rw [cursorAtFrom_succ]

theorem C6_witness :
    0 < 2 ∧ (paginate srvTwoPages 2 none).length = 2 :=
  ⟨by decide,
   (C6_theorem srvTwoPages 2 2 (by decide) (by decide)
     (fun k hk => by
       have hk0 : k = 0 := by omega
       subst hk0
       rfl)
     rfl).1⟩

lemma length_dropWhile_le_self (p : Char → Bool) :
    ∀ l : List Char, (l.dropWhile p).length ≤ l.length := by
  intro l
  induction l with
  | nil => exact Nat.le_refl 0
  | cons a t ih =>
    rw [List.dropWhile]
    cases p a with
    | true => exact Nat.le_trans ih (Nat.le_succ _)
    | false => exact Nat.le_refl _

lemma schemeLen_cases {cs : List Char} {n : Nat} (h : schemeLen cs = some n) :
    (n = 8 ∧ cs.take 8 = httpsChars) ∨ (n = 7 ∧ cs.take 7 = httpChars) := by
  unfold schemeLen at h
  by_cases h8 : httpsChars.isPrefixOf cs = true
  · left
    rw [if_pos h8] at h
    cases h
    exact ⟨rfl, isPrefixOf_take h8⟩
  · rw [if_neg h8] at h
    by_cases h7 : httpChars.isPrefixOf cs = true
    · right
      rw [if_pos h7] at h
      cases h
      exact ⟨rfl, isPrefixOf_take h7⟩
    · rw [if_neg h7] at h
      cases h

lemma scheme_chars_ok :
    httpsChars.all isLinkChar = true ∧ httpChars.all isLinkChar = true := by decide

lemma findLinksGo_mem :
    ∀ (fuel : Nat) (cs : List Char) (l : String), l ∈ findLinksGo fuel cs →
      (httpChars.isPrefixOf l.data || httpsChars.isPrefixOf l.data) = true
      ∧ ∀ c ∈ l.data, isLinkChar c = true := by
  intro fuel
  induction fuel with
  | zero =>
    intro cs l h
    simp [findLinksGo] at h
  | succ f ih =>
    intro cs l h
    cases cs with
    | nil => simp [findLinksGo] at h
    | cons c0 t =>
      rw [findLinksGo] at h
      cases hn : schemeLen (c0 :: t) with
      | none =>
        rw [hn] at h
        exact ih t l h
      | some n =>
        rw [hn] at h
        have h' : l ∈ (if ((c0 :: t).drop n).takeWhile isLinkChar = [] then findLinksGo f t
            else String.mk ((c0 :: t).take n ++ ((c0 :: t).drop n).takeWhile isLinkChar)
              :: findLinksGo f (((c0 :: t).drop n).dropWhile isLinkChar)) := h
        clear h
        by_cases hb : ((c0 :: t).drop n).takeWhile isLinkChar = []
        · rw [if_pos hb] at h'
          exact ih t l h'
        · rw [if_neg hb] at h'
          cases h' with
          | tail _ hmem => exact ih _ l hmem
          | head =>
            constructor
            · show (httpChars.isPrefixOf ((c0 :: t).take n ++ _)
                  || httpsChars.isPrefixOf ((c0 :: t).take n ++ _)) = true
              rcases schemeLen_cases hn with ⟨hn8, htake⟩ | ⟨hn7, htake⟩
              · subst hn8
                rw [htake, isPrefixOf_append]
                simp
              · subst hn7
                rw [htake, isPrefixOf_append]
                simp
            · intro c hc
              show isLinkChar c = true
              have hc' : c ∈ (c0 :: t).take n ++ ((c0 :: t).drop n).takeWhile isLinkChar := hc
              rw [List.mem_append] at hc'
              cases hc' with
              | inl hL =>
                rcases schemeLen_cases hn with ⟨hn8, htake⟩ | ⟨hn7, htake⟩
                · subst hn8
                  rw [htake] at hL
                  exact List.all_eq_true.mp scheme_chars_ok.1 c hL
                · subst hn7
                  rw [htake] at hL
                  exact List.all_eq_true.mp scheme_chars_ok.2 c hL
              | inr hR => exact mem_takeWhile_pred hR

lemma interleaved_cons_left (c : Char) {rest : List Char} {ms : List String}
    (h : Interleaved rest ms) : Interleaved (c :: rest) ms :=
  match h with
  | Interleaved.nil g => Interleaved.nil (c :: g)
  | Interleaved.cons g m r ms' hrec => Interleaved.cons (c :: g) m r ms' hrec

lemma interleaved_of_eq {cs cs' : List Char} {ms : List String} (h : cs = cs')
    (hi : Interleaved cs' ms) : Interleaved cs ms := h ▸ hi

lemma findLinksGo_interleaved :
    ∀ (fuel : Nat) (cs : List Char), cs.length ≤ fuel →
      Interleaved cs (findLinksGo fuel cs) := by
  intro fuel
  induction fuel with
  | zero =>
    intro cs hlen
    exact Interleaved.nil cs
  | succ f ih =>
    intro cs hlen
    cases cs with
    | nil => exact Interleaved.nil []
    | cons c0 t =>
      have ht : t.length ≤ f := by
        simp only [List.length_cons] at hlen
        omega
      rw [findLinksGo]
      cases hn : schemeLen (c0 :: t) with
      | none => exact interleaved_cons_left c0 (ih t ht)
      | some n =>
        have hn7 : 7 ≤ n := by
          rcases schemeLen_cases hn with ⟨h8, _⟩ | ⟨h7, _⟩ <;> omega
        show Interleaved (c0 :: t)
          (if ((c0 :: t).drop n).takeWhile isLinkChar = [] then findLinksGo f t
           else String.mk ((c0 :: t).take n ++ ((c0 :: t).drop n).takeWhile isLinkChar)
             :: findLinksGo f (((c0 :: t).drop n).dropWhile isLinkChar))
        by_cases hb : ((c0 :: t).drop n).takeWhile isLinkChar = []
        · rw [if_pos hb]
          exact interleaved_cons_left c0 (ih t ht)
        · rw [if_neg hb]
          have hafter : (((c0 :: t).drop n).dropWhile isLinkChar).length ≤ f := by
            have hA := length_dropWhile_le_self isLinkChar ((c0 :: t).drop n)
            have hB : ((c0 :: t).drop n).length = (c0 :: t).length - n :=
              List.length_drop n (c0 :: t)
            simp only [List.length_cons] at hB
            omega
          have hrest := ih (((c0 :: t).drop n).dropWhile isLinkChar) hafter
          have hdec : (c0 :: t) =
              [] ++ (String.mk ((c0 :: t).take n ++ ((c0 :: t).drop n).takeWhile isLinkChar)).data
                ++ (((c0 :: t).drop n).dropWhile isLinkChar) := by
            show (c0 :: t) =
              ((c0 :: t).take n ++ ((c0 :: t).drop n).takeWhile isLinkChar)
                ++ (((c0 :: t).drop n).dropWhile isLinkChar)
            rw [List.append_assoc, List.takeWhile_append_dropWhile, List.take_append_drop]
          exact interleaved_of_eq hdec
            (Interleaved.cons [] _ _ _ hrest)

/-- Claim C7: every extracted link begins with one of the two schemes and
contains neither whitespace nor a delimiter character; absent or empty
input yields the empty sequence; and the extracted sequence occurs in the
text in first-occurrence order, without overlap and without
deduplication (each output element occupies its own occurrence, in
order). -/
theorem C7_theorem (t : Option String) :
    (∀ l ∈ extract_visible_http_links t,
        (httpChars.isPrefixOf l.data || httpsChars.isPrefixOf l.data) = true
        ∧ ∀ c ∈ l.data, isLinkChar c = true)
    ∧ extract_visible_http_links none = []
    ∧ extract_visible_http_links (some "") = []
    ∧ ∀ s, t = some s → Interleaved s.data (extract_visible_http_links t) := by
  refine ⟨?_, rfl, rfl, ?_⟩
  · intro l hl
    cases t with
    | none => simp [extract_visible_http_links] at hl
    | some s =>
      simp only [extract_visible_http_links] at hl
      by_cases hs : s = ""
      · rw [if_pos hs] at hl
        simp at hl
      · rw [if_neg hs] at hl
        exact findLinksGo_mem s.data.length s.data l hl
  · intro s hts
    subst hts
    simp only [extract_visible_http_links]
    by_cases hs : s = ""
    · rw [if_pos hs]
      subst hs
      exact Interleaved.nil []
    · rw [if_neg hs]
      exact findLinksGo_interleaved s.data.length s.data (Nat.le_refl _)

theorem C7_witness :
    Interleaved "see https://a.b (x)".data
      (extract_visible_http_links (some "see https://a.b (x)")) :=
  (C7_theorem (some "see https://a.b (x)")).2.2.2 "see https://a.b (x)" rfl

end ChechLink
